import Mathlib

/-!
Verification of the fan-RPM estimation core of the Arduino disk monitor.

The embedding below translates the core of `disk_monitor/disk_monitor.ino`:
the interrupt-driven tick capture (`fanISR`), the consumer's critical-section
snapshot-and-reset (lines 139-145 of `loop`), and the fractional-cycle
extrapolation (lines 149-170 of `loop`).

Machine integers: all timestamps and counters are `uint32_t`; they are
modelled as `ℕ` together with explicit reduction modulo `2^32` (`M`).
Unsigned wrapping subtraction `a - b` is `wsub`, wrapping addition is `wadd`.
`double` arithmetic is modelled exactly over `ℚ`; the C conversion of a
non-negative `double` to `uint32_t` (which truncates toward zero) is
modelled with `Nat.floor`.
-/

/-- `2^32`, the modulus of `uint32_t` arithmetic. -/
def M : ℕ := 4294967296

/-- Wrapping (two's-complement) subtraction of `uint32_t` values:
`a - b` computed modulo `2^32`. -/
def wsub (a b : ℕ) : ℕ := (a % M + (M - b % M)) % M

/-- Wrapping addition of `uint32_t` values. -/
def wadd (a b : ℕ) : ℕ := (a + b) % M

/-- On a no-wrap window (`b ≤ a < 2^32`), wrapping subtraction is plain
subtraction. -/
theorem wsub_eq_sub {a b : ℕ} (hba : b ≤ a) (ha : a < M) : wsub a b = a - b := by
  unfold wsub M at *
  omega

/-- Wrapping subtraction is always `< 2^32`. -/
theorem wsub_lt (a b : ℕ) : wsub a b < M := by
  unfold wsub M
  omega

-- Configuration constants of `disk_monitor.ino`.

/-- `const uint32_t bouncePeriod = 2000;` (µs). -/
def bouncePeriod : ℕ := 2000

/-- `const uint32_t interval = 1 * 1e6;` (µs). -/
def intervalUs : ℕ := 1000000

/-- `const byte intervalsPerRev = 4;` (ticks per mechanical revolution). -/
def intervalsPerRev : ℕ := 4

/-- `const byte minTicksForExtrapolation = 2;`. -/
def minTicksForExtrapolation : ℕ := 2

/-- The producer-owned accumulator: the `volatile` globals written by the
ISR (`ISRTicks`, `firstTickDelay`, `lastTick` in the source). -/
structure ISRState where
  ISRTicks : ℕ
  firstTickDelay : ℕ
  lastTick : ℕ
deriving Repr, DecidableEq

/-- The tick-capture interrupt handler `fanISR`, acting on the accumulator.
`endG` is the global `end` (close time of the previous interval) which the
ISR reads to compute `firstTickDelay`; `now` is the `micros()` reading at
entry.  Translated from `disk_monitor.ino` lines 227-244:
reject the edge (returning the state unchanged) when
`now - lastTick < bouncePeriod`, otherwise record `firstTickDelay` on the
first tick of the interval, increment `ISRTicks` and set `lastTick = now`. -/
def fanISR (bounce endG : ℕ) (s : ISRState) (now : ℕ) : ISRState :=
  if wsub now s.lastTick < bounce then s
  else
    { ISRTicks := wadd s.ISRTicks 1
      firstTickDelay := if s.ISRTicks = 0 then wsub now endG else s.firstTickDelay
      lastTick := now % M }

/-- Run the ISR over a list of edge timestamps. -/
def runISR (bounce endG : ℕ) (s : ISRState) (es : List ℕ) : ISRState :=
  es.foldl (fanISR bounce endG) s

/-- The values the consumer copies out of the accumulator at interval
close (lines 139-145): `end`, `ticks`, `preTick`, `postTick`. -/
structure Snapshot where
  endT : ℕ
  ticks : ℕ
  preTick : ℕ
  postTick : ℕ
deriving Repr, DecidableEq

/-- The consumer's critical section at interval close
(`disk_monitor.ino` lines 139-145):
`end = now; ticks = ISRTicks; preTick = firstTickDelay;
postTick = end - lastTick; ISRTicks = 0;`.
Returns the copied snapshot together with the accumulator as the ISR will
see it afterwards. -/
def snapshotAndReset (s : ISRState) (now : ℕ) : Snapshot × ISRState :=
  (⟨now % M, s.ISRTicks, s.firstTickDelay, wsub (now % M) s.lastTick⟩,
   { s with ISRTicks := 0 })

/-- The C clamp-and-assign
`preTick = preTick > avgTickPeriod ? avgTickPeriod : preTick;`:
`preTick` is `uint32_t`, `avgTickPeriod` is a non-negative `double`, so on
the clamping branch the `double` is truncated toward zero on assignment. -/
def clampU32 (p : ℕ) (avg : ℚ) : ℕ :=
  if avg < (p : ℚ) then ⌊avg⌋₊ else p

/-- The per-interval output of the estimator (the printed fields that the
claims are about). -/
structure IntervalResult where
  ticks : ℕ
  preTick : ℕ
  postTick : ℕ
  avgTickPeriod : ℚ
  cycles : ℚ
  RPM : ℚ
deriving Repr, DecidableEq

/-- The interval estimator, `disk_monitor.ino` lines 149-170, as a pure
function of the snapshot `(start, endT, ticks, preTick0, postTick0)` and
the configuration `(minTicks, tpr, iv)` (`minTicksForExtrapolation`,
`intervalsPerRev`, `interval`):
* `if (!ticks) { preTick = 0; postTick = 0; }`
* `if (ticks >= minTicksForExtrapolation)`:
  `avgTickPeriod = (end - start - preTick - postTick) / (double)(ticks-1);`
  clamp `preTick`/`postTick` to `avgTickPeriod`;
  `cycles = ticks-1 + (preTick + postTick) / avgTickPeriod;`
* `else if (ticks >= 1)` : `cycles = ticks - 1;`
* `else` : `cycles = 0;`
* `cycles /= intervalsPerRev;  RPM = cycles * 60 * 1e6 / interval;`
All `uint32_t` arithmetic wraps; `double` arithmetic is exact `ℚ`. -/
def estimate (minTicks tpr iv start endT ticks preTick0 postTick0 : ℕ) :
    IntervalResult :=
  let preTick1 := if ticks = 0 then 0 else preTick0
  let postTick1 := if ticks = 0 then 0 else postTick0
  if minTicks ≤ ticks then
    let avg : ℚ :=
      ((wsub (wsub (wsub endT start) preTick1) postTick1 : ℕ) : ℚ) /
        ((wsub ticks 1 : ℕ) : ℚ)
    let pre2 := clampU32 preTick1 avg
    let post2 := clampU32 postTick1 avg
    let cyc1 : ℚ := ((wsub ticks 1 : ℕ) : ℚ) + ((wadd pre2 post2 : ℕ) : ℚ) / avg
    let cyc : ℚ := cyc1 / (tpr : ℚ)
    ⟨ticks, pre2, post2, avg, cyc, cyc * 60 * 1000000 / (iv : ℚ)⟩
  else if 1 ≤ ticks then
    let cyc : ℚ := ((wsub ticks 1 : ℕ) : ℚ) / (tpr : ℚ)
    ⟨ticks, preTick1, postTick1, 0, cyc, cyc * 60 * 1000000 / (iv : ℚ)⟩
  else
    ⟨ticks, preTick1, postTick1, 0, 0, 0⟩

/-! ## Helper lemmas about the embedded arithmetic -/

/-- `uint32` wrapping addition never exceeds the plain sum. -/
theorem wadd_le (a b : ℕ) : wadd a b ≤ a + b := by
  unfold wadd
  exact Nat.mod_le _ _

/-- The C clamp never exceeds a non-negative bound, once cast back to `ℚ`. -/
theorem clampU32_cast_le (p : ℕ) {avg : ℚ} (h : 0 ≤ avg) :
    (clampU32 p avg : ℚ) ≤ avg := by
  unfold clampU32
  split
  · exact Nat.floor_le h
  · exact le_of_not_lt (by assumption)

/-- Clamping against a zero bound yields zero. -/
theorem clampU32_zero (p : ℕ) : clampU32 p 0 = 0 := by
  unfold clampU32
  split
  · simp
  · rename_i h
    have : (p : ℚ) ≤ 0 := le_of_not_lt h
    exact_mod_cast le_antisymm this (by positivity)

/-- `wsub ticks 1` is plain `ticks - 1` on the `uint32` domain. -/
theorem wsub_one {ticks : ℕ} (h1 : 1 ≤ ticks) (h2 : ticks < M) :
    wsub ticks 1 = ticks - 1 := wsub_eq_sub h1 h2

/-- Unfolding of the estimator on the extrapolation branch
(`ticks >= minTicksForExtrapolation`, with `ticks ≠ 0`). -/
theorem estimate_extrap (minTicks tpr iv start endT ticks pre post : ℕ)
    (h0 : ticks ≠ 0) (hmt : minTicks ≤ ticks) :
    estimate minTicks tpr iv start endT ticks pre post =
      ⟨ticks,
       clampU32 pre (((wsub (wsub (wsub endT start) pre) post : ℕ) : ℚ) /
         ((wsub ticks 1 : ℕ) : ℚ)),
       clampU32 post (((wsub (wsub (wsub endT start) pre) post : ℕ) : ℚ) /
         ((wsub ticks 1 : ℕ) : ℚ)),
       ((wsub (wsub (wsub endT start) pre) post : ℕ) : ℚ) /
         ((wsub ticks 1 : ℕ) : ℚ),
       (((wsub ticks 1 : ℕ) : ℚ) +
         ((wadd
            (clampU32 pre (((wsub (wsub (wsub endT start) pre) post : ℕ) : ℚ) /
              ((wsub ticks 1 : ℕ) : ℚ)))
            (clampU32 post (((wsub (wsub (wsub endT start) pre) post : ℕ) : ℚ) /
              ((wsub ticks 1 : ℕ) : ℚ))) : ℕ) : ℚ) /
           (((wsub (wsub (wsub endT start) pre) post : ℕ) : ℚ) /
             ((wsub ticks 1 : ℕ) : ℚ))) / (tpr : ℚ),
       (((wsub ticks 1 : ℕ) : ℚ) +
         ((wadd
            (clampU32 pre (((wsub (wsub (wsub endT start) pre) post : ℕ) : ℚ) /
              ((wsub ticks 1 : ℕ) : ℚ)))
            (clampU32 post (((wsub (wsub (wsub endT start) pre) post : ℕ) : ℚ) /
              ((wsub ticks 1 : ℕ) : ℚ))) : ℕ) : ℚ) /
           (((wsub (wsub (wsub endT start) pre) post : ℕ) : ℚ) /
             ((wsub ticks 1 : ℕ) : ℚ))) / (tpr : ℚ) * 60 * 1000000 / (iv : ℚ)⟩ := by
  unfold estimate
  simp only [if_neg h0, if_pos hmt]

/-- On the `uint32` domain, `(wsub ticks 1 : ℚ) = (ticks : ℚ) - 1`. -/
theorem wsub_one_cast {ticks : ℕ} (h1 : 1 ≤ ticks) (h2 : ticks < M) :
    ((wsub ticks 1 : ℕ) : ℚ) = (ticks : ℚ) - 1 := by
  rw [wsub_one h1 h2]
  push_cast [h1]
  ring

/-! ## Claim theorems (estimator) -/

/-- C1: for every interval whose snapshot yields
`ticks >= minTicksForExtrapolation`, the estimator computes
`avgTickPeriod = (end - start - preTick - postTick) / (ticks - 1)` — the
denominator is `ticks - 1`, not `ticks` — and then
`cycles = (ticks - 1) + (clamped preTick + clamped postTick) / avgTickPeriod`
(the value before the final division by `intervalsPerRev`, i.e. the
estimator's `cycles` output times `intervalsPerRev`). -/
theorem c1_extrapolation_formulas (minTicks tpr iv start endT ticks pre post : ℕ)
    (hmt2 : 2 ≤ minTicks) (hmt : minTicks ≤ ticks) (hticks : ticks < M)
    (htpr : 0 < tpr) :
    (estimate minTicks tpr iv start endT ticks pre post).avgTickPeriod =
      ((wsub (wsub (wsub endT start) pre) post : ℕ) : ℚ) / ((ticks : ℚ) - 1) ∧
    (estimate minTicks tpr iv start endT ticks pre post).cycles * (tpr : ℚ) =
      ((ticks : ℚ) - 1) +
        ((wadd
          (clampU32 pre
            (estimate minTicks tpr iv start endT ticks pre post).avgTickPeriod)
          (clampU32 post
            (estimate minTicks tpr iv start endT ticks pre post).avgTickPeriod) :
            ℕ) : ℚ) /
          (estimate minTicks tpr iv start endT ticks pre post).avgTickPeriod := by
  have h0 : ticks ≠ 0 := by omega
  have hc : ((wsub ticks 1 : ℕ) : ℚ) = (ticks : ℚ) - 1 :=
    wsub_one_cast (by omega) hticks
  rw [estimate_extrap minTicks tpr iv start endT ticks pre post h0 hmt]
  have htprQ : (tpr : ℚ) ≠ 0 := by positivity
  constructor
  · rw [hc]
  · simp only [hc]
    rw [div_mul_cancel₀ _ htprQ]

/-- Witness for `c1_extrapolation_formulas` at
`minTicks = 2, tpr = 4, iv = 1000000, start = 0, endT = 1000000,
ticks = 3, pre = 100, post = 200`. -/
theorem c1_extrapolation_formulas_witness :
    (estimate 2 4 1000000 0 1000000 3 100 200).avgTickPeriod =
      ((wsub (wsub (wsub 1000000 0) 100) 200 : ℕ) : ℚ) / ((3 : ℚ) - 1) ∧
    (estimate 2 4 1000000 0 1000000 3 100 200).cycles * (4 : ℚ) =
      ((3 : ℚ) - 1) +
        ((wadd
          (clampU32 100 (estimate 2 4 1000000 0 1000000 3 100 200).avgTickPeriod)
          (clampU32 200 (estimate 2 4 1000000 0 1000000 3 100 200).avgTickPeriod) :
            ℕ) : ℚ) /
          (estimate 2 4 1000000 0 1000000 3 100 200).avgTickPeriod :=
  c1_extrapolation_formulas 2 4 1000000 0 1000000 3 100 200 (by omega) (by omega)
    (by unfold M; omega) (by omega)

/-- C2: for every interval whose snapshot yields exactly one tick
(`ticks = 1`, with `minTicksForExtrapolation ≥ 2`), the estimator outputs
`cycles = 0` and `RPM = 0` regardless of `preTick`/`postTick`, and the
extrapolation branch containing the `ticks - 1` denominator is not taken
(`avgTickPeriod` keeps its initial value `0`). -/
theorem c2_single_tick_zero (minTicks tpr iv start endT pre post : ℕ)
    (hmt2 : 2 ≤ minTicks) :
    (estimate minTicks tpr iv start endT 1 pre post).cycles = 0 ∧
    (estimate minTicks tpr iv start endT 1 pre post).RPM = 0 ∧
    (estimate minTicks tpr iv start endT 1 pre post).avgTickPeriod = 0 := by
  have hw : wsub 1 1 = 0 := by unfold wsub M; omega
  unfold estimate
  simp [show ¬ (minTicks ≤ 1) by omega, hw]

/-- Witness for `c2_single_tick_zero` at
`minTicks = 2, tpr = 4, iv = 1000000, start = 0, endT = 1000000,
pre = 123456, post = 654321`. -/
theorem c2_single_tick_zero_witness :
    (estimate 2 4 1000000 0 1000000 1 123456 654321).cycles = 0 ∧
    (estimate 2 4 1000000 0 1000000 1 123456 654321).RPM = 0 ∧
    (estimate 2 4 1000000 0 1000000 1 123456 654321).avgTickPeriod = 0 :=
  c2_single_tick_zero 2 4 1000000 0 1000000 123456 654321 (by omega)

/-- C3: for every interval whose snapshot yields zero ticks, the estimator
zeroes `preTick` and `postTick` and outputs `cycles = 0` and `RPM`
exactly `0`; the extrapolation branch is not reached (`avgTickPeriod`
keeps its initial value `0`). -/
theorem c3_zero_ticks_zero (minTicks tpr iv start endT pre post : ℕ)
    (hmt1 : 1 ≤ minTicks) :
    estimate minTicks tpr iv start endT 0 pre post =
      { ticks := 0, preTick := 0, postTick := 0, avgTickPeriod := 0,
        cycles := 0, RPM := 0 } := by
  unfold estimate
  simp [show ¬ (minTicks ≤ 0) by omega]

/-- Witness for `c3_zero_ticks_zero` at
`minTicks = 2, tpr = 4, iv = 1000000, start = 17, endT = 1000017,
pre = 99999, post = 88888`. -/
theorem c3_zero_ticks_zero_witness :
    estimate 2 4 1000000 17 1000017 0 99999 88888 =
      { ticks := 0, preTick := 0, postTick := 0, avgTickPeriod := 0,
        cycles := 0, RPM := 0 } :=
  c3_zero_ticks_zero 2 4 1000000 17 1000017 99999 88888 (by omega)

/-- C4: in every interval with `ticks >= minTicksForExtrapolation`,
`preTick` and `postTick` are each clamped to at most `avgTickPeriod`
before entering the cycles formula, so each boundary partial period
contributes at most exactly `1.0` additional cycle-fraction, and
`cycles ≤ (ticks + 1) / ticksPerRevolution`, for all values of
`preTick` and `postTick`. -/
theorem c4_clamp_caps (minTicks tpr iv start endT ticks pre post : ℕ)
    (hmt2 : 2 ≤ minTicks) (hmt : minTicks ≤ ticks) (hticks : ticks < M)
    (htpr : 0 < tpr) :
    ((estimate minTicks tpr iv start endT ticks pre post).preTick : ℚ) ≤
      (estimate minTicks tpr iv start endT ticks pre post).avgTickPeriod ∧
    ((estimate minTicks tpr iv start endT ticks pre post).postTick : ℚ) ≤
      (estimate minTicks tpr iv start endT ticks pre post).avgTickPeriod ∧
    ((estimate minTicks tpr iv start endT ticks pre post).preTick : ℚ) /
      (estimate minTicks tpr iv start endT ticks pre post).avgTickPeriod ≤ 1 ∧
    ((estimate minTicks tpr iv start endT ticks pre post).postTick : ℚ) /
      (estimate minTicks tpr iv start endT ticks pre post).avgTickPeriod ≤ 1 ∧
    (estimate minTicks tpr iv start endT ticks pre post).cycles ≤
      ((ticks : ℚ) + 1) / (tpr : ℚ) := by
  have h0 : ticks ≠ 0 := by omega
  rw [estimate_extrap minTicks tpr iv start endT ticks pre post h0 hmt]
  set avg : ℚ :=
    ((wsub (wsub (wsub endT start) pre) post : ℕ) : ℚ) /
      ((wsub ticks 1 : ℕ) : ℚ) with havg
  have havg0 : 0 ≤ avg := by
    rw [havg]
    exact div_nonneg (Nat.cast_nonneg _) (Nat.cast_nonneg _)
  have hpre : (clampU32 pre avg : ℚ) ≤ avg := clampU32_cast_le pre havg0
  have hpost : (clampU32 post avg : ℚ) ≤ avg := clampU32_cast_le post havg0
  have hsum : ((wadd (clampU32 pre avg) (clampU32 post avg) : ℕ) : ℚ) ≤
      avg + avg := by
    calc ((wadd (clampU32 pre avg) (clampU32 post avg) : ℕ) : ℚ) ≤
        ((clampU32 pre avg + clampU32 post avg : ℕ) : ℚ) := by
          exact_mod_cast wadd_le _ _
      _ = (clampU32 pre avg : ℚ) + (clampU32 post avg : ℚ) := by push_cast; ring
      _ ≤ avg + avg := add_le_add hpre hpost
  have hfrac : ((wadd (clampU32 pre avg) (clampU32 post avg) : ℕ) : ℚ) / avg ≤ 2 := by
    rcases eq_or_lt_of_le havg0 with hz | hpos
    · rw [← hz]
      simp
    · rw [div_le_iff₀ hpos]
      calc ((wadd (clampU32 pre avg) (clampU32 post avg) : ℕ) : ℚ) ≤ avg + avg :=
          hsum
        _ = 2 * avg := by ring
  have hwt : ((wsub ticks 1 : ℕ) : ℚ) = (ticks : ℚ) - 1 :=
    wsub_one_cast (by omega) hticks
  refine ⟨hpre, hpost, ?_, ?_, ?_⟩
  · rcases eq_or_lt_of_le havg0 with hz | hpos
    · rw [← hz, div_zero]
      norm_num
    · exact (div_le_one hpos).mpr hpre
  · rcases eq_or_lt_of_le havg0 with hz | hpos
    · rw [← hz, div_zero]
      norm_num
    · exact (div_le_one hpos).mpr hpost
  · have hcyc1 : ((wsub ticks 1 : ℕ) : ℚ) +
        ((wadd (clampU32 pre avg) (clampU32 post avg) : ℕ) : ℚ) / avg ≤
        (ticks : ℚ) + 1 := by
      rw [hwt]
      linarith
    have htprQ : (0 : ℚ) ≤ (tpr : ℚ) := Nat.cast_nonneg tpr
    exact div_le_div_of_nonneg_right hcyc1 htprQ

/-- Witness for `c4_clamp_caps` at
`minTicks = 2, tpr = 4, iv = 1000000, start = 0, endT = 1000000,
ticks = 5, pre = 900000, post = 50000`
(a `preTick` far beyond the average period, exercising the clamp). -/
theorem c4_clamp_caps_witness :
    ((estimate 2 4 1000000 0 1000000 5 900000 50000).preTick : ℚ) ≤
      (estimate 2 4 1000000 0 1000000 5 900000 50000).avgTickPeriod ∧
    ((estimate 2 4 1000000 0 1000000 5 900000 50000).postTick : ℚ) ≤
      (estimate 2 4 1000000 0 1000000 5 900000 50000).avgTickPeriod ∧
    ((estimate 2 4 1000000 0 1000000 5 900000 50000).preTick : ℚ) /
      (estimate 2 4 1000000 0 1000000 5 900000 50000).avgTickPeriod ≤ 1 ∧
    ((estimate 2 4 1000000 0 1000000 5 900000 50000).postTick : ℚ) /
      (estimate 2 4 1000000 0 1000000 5 900000 50000).avgTickPeriod ≤ 1 ∧
    (estimate 2 4 1000000 0 1000000 5 900000 50000).cycles ≤
      ((5 : ℚ) + 1) / (4 : ℚ) :=
  c4_clamp_caps 2 4 1000000 0 1000000 5 900000 50000 (by omega) (by omega)
    (by unfold M; omega) (by omega)

/-! ## Claim theorems (tick capture and snapshot) -/

/-- C5: for every edge delivered to `fanISR` at timestamp `now`:
if `now - lastTick < bouncePeriod` (wrapping subtraction) the routine
returns with no state modified; if `now - lastTick >= bouncePeriod`
(including exact equality) the edge is accepted: the tick count is
incremented, `lastTick` becomes `now`, and `firstTickDelay` is recorded
on the interval's first tick.  Consequently two edges closer together
than `bouncePeriod` count as one tick, while two edges exactly
`bouncePeriod` apart or beyond are both counted. -/
theorem c5_debounce (bounce endG now : ℕ) (s : ISRState) :
    (wsub now s.lastTick < bounce → fanISR bounce endG s now = s) ∧
    (bounce ≤ wsub now s.lastTick →
      (fanISR bounce endG s now).ISRTicks = wadd s.ISRTicks 1 ∧
      (fanISR bounce endG s now).lastTick = now % M ∧
      (fanISR bounce endG s now).firstTickDelay =
        (if s.ISRTicks = 0 then wsub now endG else s.firstTickDelay)) ∧
    (bounce ≤ wsub now s.lastTick → ∀ t2, wsub t2 (now % M) < bounce →
      fanISR bounce endG (fanISR bounce endG s now) t2 =
        fanISR bounce endG s now) ∧
    (bounce ≤ wsub now s.lastTick → ∀ t2, bounce ≤ wsub t2 (now % M) →
      (fanISR bounce endG (fanISR bounce endG s now) t2).ISRTicks =
        wadd (wadd s.ISRTicks 1) 1) := by
  have haccept : bounce ≤ wsub now s.lastTick →
      fanISR bounce endG s now =
        ⟨wadd s.ISRTicks 1,
         if s.ISRTicks = 0 then wsub now endG else s.firstTickDelay,
         now % M⟩ := by
    intro h
    unfold fanISR
    exact if_neg (not_lt_of_le h)
  refine ⟨?_, ?_, ?_, ?_⟩
  · intro h
    unfold fanISR
    exact if_pos h
  · intro h
    rw [haccept h]
    exact ⟨rfl, rfl, rfl⟩
  · intro h t2 h2
    rw [haccept h]
    unfold fanISR
    exact if_pos h2
  · intro h t2 h2
    rw [haccept h]
    have e2 : fanISR bounce endG
        ⟨wadd s.ISRTicks 1,
         if s.ISRTicks = 0 then wsub now endG else s.firstTickDelay,
         now % M⟩ t2 =
        ⟨wadd (wadd s.ISRTicks 1) 1,
         if wadd s.ISRTicks 1 = 0 then wsub t2 endG
           else if s.ISRTicks = 0 then wsub now endG else s.firstTickDelay,
         t2 % M⟩ := by
      unfold fanISR
      exact if_neg (not_lt_of_le h2)
    rw [e2]

/-- Witness for `c5_debounce` at `bounce = 2000`, `endG = 0`,
`now = 5000`, `s = ⟨0, 0, 0⟩`, second edges at `6000` (bounced) and
`7000` (exactly `bouncePeriod` later, counted). -/
theorem c5_debounce_witness :
    fanISR 2000 0 (fanISR 2000 0 ⟨0, 0, 0⟩ 5000) 6000 =
      fanISR 2000 0 ⟨0, 0, 0⟩ 5000 ∧
    (fanISR 2000 0 (fanISR 2000 0 ⟨0, 0, 0⟩ 5000) 7000).ISRTicks =
      wadd (wadd 0 1) 1 :=
  ⟨(c5_debounce 2000 0 5000 ⟨0, 0, 0⟩).2.2.1 (by decide) 6000 (by decide),
   (c5_debounce 2000 0 5000 ⟨0, 0, 0⟩).2.2.2 (by decide) 7000 (by decide)⟩

/-- C6, counterexample: the snapshot-and-reset does NOT set
`firstTickDelay` (the first-tick offset) back to zero.  At the concrete
accumulator state `⟨ISRTicks := 3, firstTickDelay := 5, lastTick := 100⟩`
and close time `now = 200`, the post-snapshot accumulator still has
`firstTickDelay = 5 ≠ 0`. -/
theorem c6_counterexample :
    ¬ ((snapshotAndReset ⟨3, 5, 100⟩ 200).2.ISRTicks = 0 ∧
       (snapshotAndReset ⟨3, 5, 100⟩ 200).2.firstTickDelay = 0) := by
  decide

/-- C6, amended: at interval close the consumer's snapshot-and-reset reads
out both `tickCount` and `firstTickOffset` and resets only `tickCount` to
zero, atomically with the read; `firstTickOffset` is left unchanged, and
is instead lazily overwritten by the producer at the next accepted edge
(which sees `tickCount = 0` and treats itself as the new interval's first
tick). -/
theorem c6_amended_reset (s : ISRState) (now : ℕ) :
    (snapshotAndReset s now).1.ticks = s.ISRTicks ∧
    (snapshotAndReset s now).1.preTick = s.firstTickDelay ∧
    (snapshotAndReset s now).2.ISRTicks = 0 ∧
    (snapshotAndReset s now).2.firstTickDelay = s.firstTickDelay ∧
    (∀ bounce endG t, bounce ≤ wsub t (snapshotAndReset s now).2.lastTick →
      (fanISR bounce endG (snapshotAndReset s now).2 t).firstTickDelay =
        wsub t endG) := by
  refine ⟨rfl, rfl, rfl, rfl, ?_⟩
  intro bounce endG t ht
  have e : fanISR bounce endG (snapshotAndReset s now).2 t =
      ⟨wadd 0 1, wsub t endG, t % M⟩ := by
    unfold fanISR
    exact if_neg (not_lt_of_le ht)
  rw [e]

/-- Witness for `c6_amended_reset` at
`s = ⟨7, 42, 100⟩`, `now = 300`, then an accepted edge at `t = 5000`
with `bounce = 2000`, `endG = 300`. -/
theorem c6_amended_reset_witness :
    (snapshotAndReset ⟨7, 42, 100⟩ 300).1.ticks = 7 ∧
    (snapshotAndReset ⟨7, 42, 100⟩ 300).2.ISRTicks = 0 ∧
    (fanISR 2000 300 (snapshotAndReset ⟨7, 42, 100⟩ 300).2 5000).firstTickDelay =
      wsub 5000 300 :=
  ⟨(c6_amended_reset ⟨7, 42, 100⟩ 300).1,
   (c6_amended_reset ⟨7, 42, 100⟩ 300).2.2.1,
   (c6_amended_reset ⟨7, 42, 100⟩ 300).2.2.2.2 2000 300 5000 (by decide)⟩

/-- C7: the snapshot-and-reset never modifies `lastTick`
(`lastTickTimestamp`), and among the producer-owned accumulator fields it
writes only `ISRTicks` (`tickCount`): the post-snapshot accumulator is
exactly the old one with `ISRTicks := 0`, and the snapshot's `postTick`
is computed from the untouched `lastTick`. -/
theorem c7_snapshot_frame (s : ISRState) (now : ℕ) :
    (snapshotAndReset s now).2.lastTick = s.lastTick ∧
    (snapshotAndReset s now).2.firstTickDelay = s.firstTickDelay ∧
    (snapshotAndReset s now).2 = { s with ISRTicks := 0 } ∧
    (snapshotAndReset s now).1.postTick = wsub (now % M) s.lastTick :=
  ⟨rfl, rfl, rfl, rfl⟩

/-! ## The concrete 1000-RPM-nominal scenario (claim C8) -/

/-- Accepted-edge offsets `5000, 20000, ..., 995000` µs (67 edges at exact
15000 µs spacing) within a 1 000 000 µs interval starting at time 0. -/
def c8Edges : List ℕ := (List.range 67).map (fun k => 5000 + 15000 * k)

/-- The accumulator after the ISR has processed the scenario's 67 edges
(previous interval closed at time 0, `bouncePeriod = 2000`). -/
def c8Final : ISRState := runISR 2000 0 ⟨0, 0, 0⟩ c8Edges

/-- The consumer's snapshot of the scenario at interval close
(`now = 1000000`). -/
def c8Snap : Snapshot := (snapshotAndReset c8Final 1000000).1

/-- The estimator's output for the scenario with
`interval = 1000000` µs and `ticksPerRevolution = 2`. -/
def c8Result : IntervalResult :=
  estimate 2 2 1000000 0 c8Snap.endT c8Snap.ticks c8Snap.preTick c8Snap.postTick

set_option maxRecDepth 8000 in
theorem c8_snap_eq : c8Snap = ⟨1000000, 67, 5000, 5000⟩ := by decide

theorem c8_result_eq : c8Result = ⟨67, 5000, 5000, 15000, 100 / 3, 2000⟩ := by
  have hres : c8Result = estimate 2 2 1000000 0 1000000 67 5000 5000 := by
    unfold c8Result
    rw [c8_snap_eq]
  rw [hres, estimate_extrap 2 2 1000000 0 1000000 67 5000 5000 (by omega) (by omega)]
  have h1 : wsub (wsub (wsub 1000000 0) 5000) 5000 = 990000 := by decide
  have h2 : wsub 67 1 = 66 := by decide
  rw [h1, h2]
  have havg : ((990000 : ℕ) : ℚ) / ((66 : ℕ) : ℚ) = 15000 := by norm_num
  rw [havg]
  have hcl : clampU32 5000 15000 = 5000 := by
    unfold clampU32
    norm_num
  rw [hcl]
  have hw : wadd 5000 5000 = 10000 := by decide
  rw [hw]
  simp only [IntervalResult.mk.injEq]
  norm_num

/-- C8, counterexample: for the scenario's concrete input
(`interval = 1000000` µs, `ticksPerRevolution = 2`, 67 accepted edges at
offsets `5000, 20000, ..., 995000`), the estimator outputs
`RPM = 2000` exactly — not `≈ 1005`, and not within a few RPM of 1000. -/
theorem c8_counterexample :
    c8Result.RPM = 2000 ∧ ¬ |c8Result.RPM - 1005| ≤ 100 ∧
    ¬ |c8Result.RPM - 1000| ≤ 100 := by
  rw [c8_result_eq]
  norm_num [abs_le]

/-- C8, amended: for the scenario's concrete input the estimator produces
`ticks = 67`, `preTick = postTick = 5000`, `avgTickPeriod = 15000`
exactly, `cycles = 100/3 ≈ 33.33`, and `RPM = 2000` exactly (the rate
consistent with 2 ticks per revolution at 15000 µs per tick). -/
theorem c8_amended_scenario :
    c8Result.ticks = 67 ∧ c8Result.preTick = 5000 ∧ c8Result.postTick = 5000 ∧
    c8Result.avgTickPeriod = 15000 ∧ c8Result.cycles = 100 / 3 ∧
    c8Result.RPM = 2000 := by
  rw [c8_result_eq]
  exact ⟨rfl, rfl, rfl, rfl, rfl, rfl⟩

/-! ## Interleaving model of the producer/consumer hand-off (claim C9)

The consumer's critical section (lines 139-145) is modelled micro-step by
micro-step; the producer (the edge-triggered interrupt) can fire between
any two micro-steps, but only while interrupts are enabled.  An edge
arriving while interrupts are masked is latched (`pending`) and delivered
after re-enabling, per the spec's latch-and-deliver policy.  The ghost
counters `accepted` (edges the ISR has accepted) and `reported` (ticks
handed to the reporting stage at snapshot time) state tick conservation. -/

/-- Consumer control point: `idle` is outside the critical section;
`p1`..`p6` are the points between the micro-operations
`noInterrupts; end = now; ticks = ISRTicks; preTick = firstTickDelay;
postTick = end - lastTick; ISRTicks = 0; interrupts()`. -/
inductive Phase
  | idle
  | p1
  | p2
  | p3
  | p4
  | p5
  | p6
deriving Repr, DecidableEq

/-- Whole-system state: accumulator, global `end`, interrupt mask, latched
edges, consumer phase and locals, plus the two ghost counters. -/
structure Sys where
  isr : ISRState
  endG : ℕ
  intEnabled : Bool
  pending : List ℕ
  phase : Phase
  nowL : ℕ
  ticksL : ℕ
  preL : ℕ
  postL : ℕ
  accepted : ℕ
  reported : ℕ
deriving Repr, DecidableEq

/-- Effect of the ISR firing for an edge at time `t`: run `fanISR` on the
accumulator and bump the ghost `accepted` counter iff the edge passes the
debounce filter. -/
def deliverEdge (bounce : ℕ) (s : Sys) (t : ℕ) : Sys :=
  { s with
      isr := fanISR bounce s.endG s.isr t
      accepted := s.accepted + (if bounce ≤ wsub t s.isr.lastTick then 1 else 0) }

/-- Transition labels: producer events (`edge` fires the ISR, `latch`
queues an edge while masked, `deliver` fires a latched edge after
unmasking) and the consumer's micro-operations. -/
inductive Act
  | edge (t : ℕ)
  | latch (t : ℕ)
  | deliver
  | beginCS (now : ℕ)
  | writeEnd
  | readTicks
  | readPre
  | readPost
  | resetTicks
  | endCS

/-- Small-step transition relation of the two-context system. -/
inductive Step (bounce : ℕ) : Sys → Act → Sys → Prop
  | edge (s : Sys) (t : ℕ) (h : s.intEnabled = true) :
      Step bounce s (Act.edge t) (deliverEdge bounce s t)
  | latch (s : Sys) (t : ℕ) (h : s.intEnabled = false) :
      Step bounce s (Act.latch t) { s with pending := s.pending ++ [t] }
  | deliver (s : Sys) (t : ℕ) (rest : List ℕ) (h : s.intEnabled = true)
      (hp : s.pending = t :: rest) :
      Step bounce s Act.deliver { deliverEdge bounce s t with pending := rest }
  | beginCS (s : Sys) (now : ℕ) (h : s.phase = Phase.idle) :
      Step bounce s (Act.beginCS now)
        { s with intEnabled := false, phase := Phase.p1, nowL := now }
  | writeEnd (s : Sys) (h : s.phase = Phase.p1) :
      Step bounce s Act.writeEnd { s with endG := s.nowL % M, phase := Phase.p2 }
  | readTicks (s : Sys) (h : s.phase = Phase.p2) :
      Step bounce s Act.readTicks
        { s with ticksL := s.isr.ISRTicks, phase := Phase.p3 }
  | readPre (s : Sys) (h : s.phase = Phase.p3) :
      Step bounce s Act.readPre
        { s with preL := s.isr.firstTickDelay, phase := Phase.p4 }
  | readPost (s : Sys) (h : s.phase = Phase.p4) :
      Step bounce s Act.readPost
        { s with postL := wsub s.endG s.isr.lastTick, phase := Phase.p5 }
  | resetTicks (s : Sys) (h : s.phase = Phase.p5) :
      Step bounce s Act.resetTicks
        { s with isr := { s.isr with ISRTicks := 0 },
                 reported := s.reported + s.ticksL, phase := Phase.p6 }
  | endCS (s : Sys) (h : s.phase = Phase.p6) :
      Step bounce s Act.endCS { s with intEnabled := true, phase := Phase.idle }

/-- Start-up state (`setup()`: counters zeroed, interrupts attached). -/
def initSys : Sys :=
  ⟨⟨0, 0, 0⟩, 0, true, [], Phase.idle, 0, 0, 0, 0, 0, 0⟩

/-- States reachable from start-up under any interleaving. -/
inductive Reachable (bounce : ℕ) : Sys → Prop
  | init : Reachable bounce initSys
  | step {s : Sys} {a : Act} {s' : Sys} :
      Reachable bounce s → Step bounce s a s' → Reachable bounce s'

/-- System invariant: interrupts are masked throughout the critical
section; between the `ticks = ISRTicks` read and the `ISRTicks = 0` reset
the consumer's copy agrees with the accumulator; and no tick is ever lost
or double-counted (`accepted ≡ reported + ISRTicks` modulo the `uint32`
counter width). -/
def SysInv (s : Sys) : Prop :=
  (s.phase ≠ Phase.idle → s.intEnabled = false) ∧
  ((s.phase = Phase.p3 ∨ s.phase = Phase.p4 ∨ s.phase = Phase.p5) →
    s.ticksL = s.isr.ISRTicks) ∧
  s.accepted % M = (s.reported + s.isr.ISRTicks) % M

theorem sysInv_init : SysInv initSys := by
  refine ⟨?_, ?_, rfl⟩
  · intro h
    exact absurd rfl h
  · intro h
    rcases h with h | h | h <;> exact Phase.noConfusion h

theorem sysInv_deliverEdge {bounce : ℕ} {s : Sys} (t : ℕ) (hs : SysInv s) :
    (deliverEdge bounce s t).accepted % M =
      ((deliverEdge bounce s t).reported +
        (deliverEdge bounce s t).isr.ISRTicks) % M := by
  obtain ⟨-, -, h3⟩ := hs
  show (s.accepted + (if bounce ≤ wsub t s.isr.lastTick then 1 else 0)) % M =
    (s.reported + (fanISR bounce s.endG s.isr t).ISRTicks) % M
  unfold fanISR
  by_cases hb : wsub t s.isr.lastTick < bounce
  · rw [if_pos hb, if_neg (by omega)]
    simpa using h3
  · rw [if_neg hb, if_pos (by omega)]
    show (s.accepted + 1) % M = (s.reported + wadd s.isr.ISRTicks 1) % M
    unfold wadd M at *
    omega

theorem sysInv_step {bounce : ℕ} {s : Sys} {a : Act} {s' : Sys}
    (hs : SysInv s) (hstep : Step bounce s a s') : SysInv s' := by
  obtain ⟨h1, h2, h3⟩ := hs
  cases hstep with
  | edge t ht =>
      refine ⟨fun hph => h1 hph, ?_, sysInv_deliverEdge t ⟨h1, h2, h3⟩⟩
      intro hph
      have hph' : s.phase = Phase.p3 ∨ s.phase = Phase.p4 ∨ s.phase = Phase.p5 :=
        hph
      have hmask : s.intEnabled = false :=
        h1 (by rcases hph' with h' | h' | h' <;> rw [h'] <;> decide)
      rw [ht] at hmask
      cases hmask
  | latch t ht =>
      exact ⟨fun hph => h1 hph, fun hph => h2 hph, h3⟩
  | deliver t rest ht hp =>
      refine ⟨fun hph => h1 hph, ?_, sysInv_deliverEdge t ⟨h1, h2, h3⟩⟩
      intro hph
      have hph' : s.phase = Phase.p3 ∨ s.phase = Phase.p4 ∨ s.phase = Phase.p5 :=
        hph
      have hmask : s.intEnabled = false :=
        h1 (by rcases hph' with h' | h' | h' <;> rw [h'] <;> decide)
      rw [ht] at hmask
      cases hmask
  | beginCS now ht =>
      refine ⟨fun _ => rfl, ?_, h3⟩
      intro hph
      rcases hph with h' | h' | h' <;> exact Phase.noConfusion h'
  | writeEnd ht =>
      refine ⟨fun _ => h1 (by rw [ht]; decide), ?_, h3⟩
      intro hph
      rcases hph with h' | h' | h' <;> exact Phase.noConfusion h'
  | readTicks ht =>
      exact ⟨fun _ => h1 (by rw [ht]; decide), fun _ => rfl, h3⟩
  | readPre ht =>
      exact ⟨fun _ => h1 (by rw [ht]; decide), fun _ => h2 (Or.inl ht), h3⟩
  | readPost ht =>
      exact ⟨fun _ => h1 (by rw [ht]; decide), fun _ => h2 (Or.inr (Or.inl ht)),
        h3⟩
  | resetTicks ht =>
      refine ⟨fun _ => h1 (by rw [ht]; decide), ?_, ?_⟩
      · intro hph
        rcases hph with h' | h' | h' <;> exact Phase.noConfusion h'
      · have hL : s.ticksL = s.isr.ISRTicks := h2 (Or.inr (Or.inr ht))
        show s.accepted % M = (s.reported + s.ticksL + 0) % M
        rw [Nat.add_zero, hL]
        exact h3
  | endCS ht =>
      refine ⟨fun hph => absurd rfl hph, ?_, h3⟩
      intro hph
      rcases hph with h' | h' | h' <;> exact Phase.noConfusion h'

theorem sysInv_reachable {bounce : ℕ} {s : Sys} (h : Reachable bounce s) :
    SysInv s := by
  induction h with
  | init => exact sysInv_init
  | step _ hstep ih => exact sysInv_step ih hstep

/-- C9: in every reachable state that is inside the consumer's critical
section, interrupts are masked, so no producer invocation (neither a
fresh edge nor a latched delivery) can interleave between the consumer's
reads of the accumulator and its reset of the tick counter; and in every
reachable state no tick has been lost or double-counted:
`accepted = reported + ISRTicks` (modulo the `uint32` counter width). -/
theorem c9_atomic_snapshot (bounce : ℕ) (s : Sys) (h : Reachable bounce s) :
    (s.phase ≠ Phase.idle →
      s.intEnabled = false ∧
      (∀ t s', ¬ Step bounce s (Act.edge t) s') ∧
      (∀ s', ¬ Step bounce s Act.deliver s')) ∧
    s.accepted % M = (s.reported + s.isr.ISRTicks) % M := by
  obtain ⟨h1, h2, h3⟩ := sysInv_reachable h
  refine ⟨?_, h3⟩
  intro hph
  refine ⟨h1 hph, ?_, ?_⟩
  · intro t s' hst
    cases hst
    rename_i he
    rw [h1 hph] at he
    exact Bool.noConfusion he
  · intro s' hst
    cases hst
    rename_i t rest he hp
    rw [h1 hph] at he
    exact Bool.noConfusion he

/-- The state reached from start-up by entering the critical section
(`noInterrupts` at `now = 1000000`). -/
def c9CSState : Sys :=
  { initSys with intEnabled := false, phase := Phase.p1, nowL := 1000000 }

/-- Witness for `c9_atomic_snapshot`: the critical-section entry state has
interrupts masked and satisfies tick conservation. -/
theorem c9_atomic_snapshot_witness :
    c9CSState.intEnabled = false ∧
    c9CSState.accepted % M =
      (c9CSState.reported + c9CSState.isr.ISRTicks) % M := by
  have hr : Reachable 2000 c9CSState :=
    Reachable.step Reachable.init (Step.beginCS initSys 1000000 rfl)
  have hc := c9_atomic_snapshot 2000 c9CSState hr
  exact ⟨(hc.1 (by decide)).1, hc.2⟩

/-! ## Debounce lower bound on the extrapolation numerator (claim C10) -/

theorem chain_le_weaken {a b : ℕ} {l : List ℕ} (hab : a ≤ b)
    (hc : List.Chain (· ≤ ·) b l) : List.Chain (· ≤ ·) a l := by
  cases hc with
  | nil => exact List.Chain.nil
  | cons h t => exact List.Chain.cons (le_trans hab h) t

theorem wadd_one {k : ℕ} (h : k + 1 < M) : wadd k 1 = k + 1 := by
  unfold wadd M at *
  omega

/-- Invariant of the ISR over an interval: for monotone in-window edge
timestamps, the accumulated state keeps
`E + firstTickDelay + (ISRTicks - 1) * bounce ≤ lastTick` — consecutive
accepted edges are at least `bounce` apart, and the first accepted edge
is at `E + firstTickDelay`. -/
theorem runISR_inv (bounce E endT : ℕ) (hM : endT < M) :
    ∀ (es : List ℕ) (s : ISRState),
      List.Chain (· ≤ ·) s.lastTick es →
      (∀ t ∈ es, E ≤ t ∧ t ≤ endT) →
      s.lastTick ≤ endT →
      s.ISRTicks + es.length < M →
      (0 < s.ISRTicks →
        E + s.firstTickDelay + (s.ISRTicks - 1) * bounce ≤ s.lastTick) →
      (runISR bounce E s es).lastTick ≤ endT ∧
      (runISR bounce E s es).ISRTicks ≤ s.ISRTicks + es.length ∧
      (0 < (runISR bounce E s es).ISRTicks →
        E + (runISR bounce E s es).firstTickDelay +
          ((runISR bounce E s es).ISRTicks - 1) * bounce ≤
            (runISR bounce E s es).lastTick) := by
  intro es
  induction es with
  | nil =>
      intro s hchain hes hlast hlen hinv
      exact ⟨hlast, Nat.le_add_right _ _, hinv⟩
  | cons t ts ih =>
      intro s hchain hes hlast hlen hinv
      have hst : s.lastTick ≤ t := (List.chain_cons.mp hchain).1
      have hchain' : List.Chain (· ≤ ·) t ts := (List.chain_cons.mp hchain).2
      have hEt : E ≤ t := (hes t (List.mem_cons_self t ts)).1
      have htend : t ≤ endT := (hes t (List.mem_cons_self t ts)).2
      have htM : t < M := lt_of_le_of_lt htend hM
      have hrun : runISR bounce E s (t :: ts) =
          runISR bounce E (fanISR bounce E s t) ts := rfl
      by_cases hb : wsub t s.lastTick < bounce
      · have hfan : fanISR bounce E s t = s := by
          unfold fanISR
          exact if_pos hb
        rw [hrun, hfan]
        have hlen' : s.ISRTicks + ts.length < M := by
          simp only [List.length_cons] at hlen
          omega
        have happ := ih s (chain_le_weaken hst hchain')
          (fun u hu => hes u (List.mem_cons_of_mem t hu)) hlast hlen' hinv
        refine ⟨happ.1, ?_, happ.2.2⟩
        have := happ.2.1
        simp only [List.length_cons]
        omega
      · have hsub : wsub t s.lastTick = t - s.lastTick := wsub_eq_sub hst htM
        have hbt : bounce + s.lastTick ≤ t := by
          rw [hsub] at hb
          omega
        have hk1 : s.ISRTicks + 1 < M := by
          simp only [List.length_cons] at hlen
          omega
        have hfan : fanISR bounce E s t =
            ⟨s.ISRTicks + 1,
             if s.ISRTicks = 0 then wsub t E else s.firstTickDelay, t⟩ := by
          unfold fanISR
          rw [if_neg hb, wadd_one hk1, Nat.mod_eq_of_lt htM]
        have hinv' : 0 < s.ISRTicks + 1 →
            E + (if s.ISRTicks = 0 then wsub t E else s.firstTickDelay) +
              (s.ISRTicks + 1 - 1) * bounce ≤ t := by
          intro _
          rw [Nat.add_sub_cancel]
          by_cases hz : s.ISRTicks = 0
          · rw [if_pos hz, hz, Nat.zero_mul, wsub_eq_sub hEt htM]
            omega
          · rw [if_neg hz]
            have hpos : 0 < s.ISRTicks := Nat.pos_of_ne_zero hz
            have hx := hinv hpos
            have hmul : s.ISRTicks * bounce =
                (s.ISRTicks - 1) * bounce + bounce := by
              have h1 : s.ISRTicks - 1 + 1 = s.ISRTicks :=
                Nat.succ_pred_eq_of_pos hpos
              calc s.ISRTicks * bounce = (s.ISRTicks - 1 + 1) * bounce := by
                    rw [h1]
                _ = (s.ISRTicks - 1) * bounce + bounce := by ring
            rw [hmul]
            omega
        rw [hrun, hfan]
        have hlen' : s.ISRTicks + 1 + ts.length < M := by
          simp only [List.length_cons] at hlen
          omega
        have happ := ih
          ⟨s.ISRTicks + 1,
           if s.ISRTicks = 0 then wsub t E else s.firstTickDelay, t⟩
          hchain' (fun u hu => hes u (List.mem_cons_of_mem t hu)) htend hlen'
          hinv'
        refine ⟨happ.1, ?_, happ.2.2⟩
        have h21 : (runISR bounce E
            ⟨s.ISRTicks + 1,
             if s.ISRTicks = 0 then wsub t E else s.firstTickDelay, t⟩
            ts).ISRTicks ≤ s.ISRTicks + 1 + ts.length := happ.2.1
        simp only [List.length_cons]
        omega

/-- C10: for an interval whose snapshot (produced by the debouncing ISR
over monotone, in-window edge timestamps, from a freshly reset
accumulator) yields `ticks ≥ 2`, the extrapolation numerator
`end - start - preTick - postTick` equals the elapsed time between the
interval's first and last accepted edges, is at least
`(ticks - 1) * bouncePeriod`, and therefore the estimator's
`avgTickPeriod` is strictly positive, so the divisions by `ticks - 1`
and by `avgTickPeriod` are well-defined. -/
theorem c10_numerator_positive (bounce E endT tpr iv : ℕ) (es : List ℕ)
    (s : ISRState)
    (hE0 : s.ISRTicks = 0)
    (hchain : List.Chain (· ≤ ·) s.lastTick es)
    (hes : ∀ t ∈ es, E ≤ t ∧ t ≤ endT)
    (hlast : s.lastTick ≤ endT)
    (hMend : endT < M)
    (hlen : es.length < M)
    (hbpos : 0 < bounce)
    (h2 : 2 ≤ (runISR bounce E s es).ISRTicks) :
    wsub (wsub (wsub endT E) (runISR bounce E s es).firstTickDelay)
        (wsub endT (runISR bounce E s es).lastTick) =
      (runISR bounce E s es).lastTick -
        (E + (runISR bounce E s es).firstTickDelay) ∧
    ((runISR bounce E s es).ISRTicks - 1) * bounce ≤
      wsub (wsub (wsub endT E) (runISR bounce E s es).firstTickDelay)
        (wsub endT (runISR bounce E s es).lastTick) ∧
    0 < (estimate 2 tpr iv E endT (runISR bounce E s es).ISRTicks
          (runISR bounce E s es).firstTickDelay
          (wsub endT (runISR bounce E s es).lastTick)).avgTickPeriod := by
  have hlen0 : s.ISRTicks + es.length < M := by
    rw [hE0]
    omega
  have hinv0 : 0 < s.ISRTicks →
      E + s.firstTickDelay + (s.ISRTicks - 1) * bounce ≤ s.lastTick := by
    intro hpos
    rw [hE0] at hpos
    omega
  obtain ⟨hlastF, hleF, hinvF⟩ :=
    runISR_inv bounce E endT hMend es s hchain hes hlast hlen0 hinv0
  have hticksM : (runISR bounce E s es).ISRTicks < M := by
    rw [hE0] at hleF
    omega
  have hkey := hinvF (by omega)
  have hEpre : E + (runISR bounce E s es).firstTickDelay ≤
      (runISR bounce E s es).lastTick :=
    le_trans (Nat.le_add_right _ _) hkey
  have hEend : E ≤ endT := by omega
  have w1 : wsub endT E = endT - E := wsub_eq_sub hEend hMend
  have w2 : wsub (endT - E) (runISR bounce E s es).firstTickDelay =
      endT - E - (runISR bounce E s es).firstTickDelay :=
    wsub_eq_sub (by omega) (by omega)
  have w3 : wsub endT (runISR bounce E s es).lastTick =
      endT - (runISR bounce E s es).lastTick :=
    wsub_eq_sub hlastF hMend
  have w4 : wsub (endT - E - (runISR bounce E s es).firstTickDelay)
        (endT - (runISR bounce E s es).lastTick) =
      endT - E - (runISR bounce E s es).firstTickDelay -
        (endT - (runISR bounce E s es).lastTick) :=
    wsub_eq_sub (by omega) (by omega)
  have hnum : wsub (wsub (wsub endT E) (runISR bounce E s es).firstTickDelay)
        (wsub endT (runISR bounce E s es).lastTick) =
      (runISR bounce E s es).lastTick -
        (E + (runISR bounce E s es).firstTickDelay) := by
    rw [w1, w2, w3, w4]
    omega
  have hx : ((runISR bounce E s es).ISRTicks - 1) * bounce ≤
      (runISR bounce E s es).lastTick -
        (E + (runISR bounce E s es).firstTickDelay) := by
    generalize hg : ((runISR bounce E s es).ISRTicks - 1) * bounce = x at hkey ⊢
    omega
  refine ⟨hnum, by rw [hnum]; exact hx, ?_⟩
  have hnpos : 0 < wsub (wsub (wsub endT E)
      (runISR bounce E s es).firstTickDelay)
      (wsub endT (runISR bounce E s es).lastTick) := by
    rw [hnum]
    have hone : 1 * bounce ≤
        ((runISR bounce E s es).ISRTicks - 1) * bounce :=
      Nat.mul_le_mul_right bounce (by omega)
    rw [Nat.one_mul] at hone
    generalize hg : ((runISR bounce E s es).ISRTicks - 1) * bounce = x at hx hone
    omega
  rw [estimate_extrap 2 tpr iv E endT (runISR bounce E s es).ISRTicks
    (runISR bounce E s es).firstTickDelay
    (wsub endT (runISR bounce E s es).lastTick) (by omega) h2]
  have hden : (0 : ℚ) <
      ((wsub (runISR bounce E s es).ISRTicks 1 : ℕ) : ℚ) := by
    rw [wsub_one (by omega) hticksM]
    exact_mod_cast Nat.sub_pos_of_lt (by omega)
  exact div_pos (by exact_mod_cast hnpos) hden

/-- Witness for `c10_numerator_positive`: two accepted edges at 5000 and
20000 µs in the interval `[0, 1000000]` with `bounce = 2000`. -/
theorem c10_numerator_positive_witness :
    wsub (wsub (wsub 1000000 0)
        (runISR 2000 0 ⟨0, 0, 0⟩ [5000, 20000]).firstTickDelay)
        (wsub 1000000 (runISR 2000 0 ⟨0, 0, 0⟩ [5000, 20000]).lastTick) =
      (runISR 2000 0 ⟨0, 0, 0⟩ [5000, 20000]).lastTick -
        (0 + (runISR 2000 0 ⟨0, 0, 0⟩ [5000, 20000]).firstTickDelay) ∧
    ((runISR 2000 0 ⟨0, 0, 0⟩ [5000, 20000]).ISRTicks - 1) * 2000 ≤
      wsub (wsub (wsub 1000000 0)
        (runISR 2000 0 ⟨0, 0, 0⟩ [5000, 20000]).firstTickDelay)
        (wsub 1000000 (runISR 2000 0 ⟨0, 0, 0⟩ [5000, 20000]).lastTick) ∧
    0 < (estimate 2 2 1000000 0 1000000
          (runISR 2000 0 ⟨0, 0, 0⟩ [5000, 20000]).ISRTicks
          (runISR 2000 0 ⟨0, 0, 0⟩ [5000, 20000]).firstTickDelay
          (wsub 1000000
            (runISR 2000 0 ⟨0, 0, 0⟩ [5000, 20000]).lastTick)).avgTickPeriod :=
  c10_numerator_positive 2000 0 1000000 2 1000000 [5000, 20000] ⟨0, 0, 0⟩
    rfl
    (List.Chain.cons (by decide) (List.Chain.cons (by decide) List.Chain.nil))
    (by decide) (by decide) (by decide) (by decide) (by decide) (by decide)
